import Mathlib

/-!
# Shallow embedding of the vibe-kanban AI session / settings subsystem

This file embeds, as executable Lean definitions, the parts of the
vibe-kanban client that the specification talks about:

* the session data model (src/types/ai.ts) and settings data model
  (the settings type module),
* the local-storage session store, active-session pointer store and the
  per-vendor rate limiter (the aiSession utility module),
* the React session hook (src/hooks/useAISessions.ts), modelled as pure
  state-transition functions on an explicit hook state and storage state,
* the credential obfuscation transform and settings load path
  (src/hooks/useProjects.ts, settings half),
* the server-sent-event streaming parser of the vendor clients
  (the aiClients module).

Modelling conventions:

* JS Date values are integer millisecond timestamps (Int).  All Date
  constructions performed during a single operation are given the same
  timestamp, which is passed to the operation as an explicit `now`
  argument.
* JS numbers used as money (cost fields) are modelled as rationals;
  numbers used as counters/token counts as naturals.
* A local-storage slot holds either no value (`absent`), a string that
  does not parse as JSON (`corrupt`), or a parsed value (`val`).  Code
  paths where JSON.parse throws are exactly the `corrupt` branches.
* Fallible operations return their JS boolean/result together with the
  storage state they leave behind.
-/

/-- JS millisecond timestamp (the value of Date.now() / a revived Date). -/
abbrev Timestamp := Int

/-- The four vendor tags of src/types/ai.ts (AIServiceType). -/
inductive AIServiceType where
  | openAI
  | claudeCode
  | openRouter
  | aider
deriving DecidableEq, Repr

/-- Message roles from src/types/ai.ts. -/
inductive AIRole where
  | user
  | assistant
  | system
deriving DecidableEq, Repr

/-- Optional usage metadata of a message (src/types/ai.ts, AIMessage.metadata). -/
structure MessageMetadata where
  tokens : Option Nat
  model : Option String
  cost : Option ℚ
  processingTime : Option Nat
deriving DecidableEq, Repr

/-- A chat message (src/types/ai.ts, AIMessage). -/
structure AIMessage where
  id : String
  role : AIRole
  content : String
  timestamp : Timestamp
  metadata : Option MessageMetadata
deriving DecidableEq, Repr

/-- Aggregate session metadata (src/types/ai.ts, AISession.metadata). -/
structure SessionMetadata where
  totalTokens : Nat
  totalCost : ℚ
  messageCount : Nat
  lastActivity : Timestamp
deriving DecidableEq, Repr

/-- An AI conversation session (src/types/ai.ts, AISession). -/
structure AISession where
  id : String
  title : String
  projectId : String
  service : AIServiceType
  model : Option String
  messages : List AIMessage
  createdAt : Timestamp
  updatedAt : Timestamp
  isActive : Bool
  metadata : Option SessionMetadata
deriving DecidableEq, Repr

/-- createAISession from the aiSession utility module.  The randomly
generated session id and the current time are explicit arguments; the
default title's toLocaleString rendering is modelled as the decimal
rendering of the timestamp.  A missing or empty title argument (both
falsy in JS) selects the default title. -/
def createAISession (now : Timestamp) (sessionId : String) (projectId : String)
    (service : AIServiceType) (title : Option String) : AISession :=
  { id := sessionId
    title := match title with
      | some t => if t = "" then "AI Session " ++ toString now else t
      | none => "AI Session " ++ toString now
    projectId := projectId
    service := service
    model := none
    messages := []
    createdAt := now
    updatedAt := now
    isActive := true
    metadata := some
      { totalTokens := 0
        totalCost := 0
        messageCount := 0
        lastActivity := now } }

/-- State of one local-storage slot whose content is parsed as JSON:
missing, unparseable, or holding a parsed value. -/
inductive Blob (α : Type) where
  | absent
  | corrupt
  | val (a : α)
deriving DecidableEq, Repr

/-- The `vibe-kanban-ai-sessions` slot: one JSON array of all sessions of
all projects. -/
abbrev SessionsBlob := Blob (List AISession)

/-- The `vibe-kanban-active-ai-session` slot: a JSON object mapping
project id to active session id, modelled as an insertion-ordered
association list with unique keys (the shape JS object updates keep). -/
abbrev ActiveBlob := Blob (List (String × String))

/-- Models the JS idiom `const i = xs.findIndex(p); if (i === -1) fail;
xs[i] = f(xs[i])`: rewrite the first element satisfying p, or report
that none exists. -/
def modifyFirst (p : α → Bool) (f : α → α) : List α → Option (List α)
  | [] => none
  | a :: l => if p a then some (f a :: l) else (modifyFirst p f l).map (a :: ·)

/-- Set a key in a JS object modelled as an association list: replace the
value in place if the key exists, otherwise append the new key. -/
def setKey (k v : String) : List (String × String) → List (String × String)
  | [] => [(k, v)]
  | (k', v') :: rest => if k' = k then (k, v) :: rest else (k', v') :: setKey k v rest

/-- The partial-update object passed to sessionStorage.updateSession.
The hook only ever patches the title, so that is the one field the
embedding carries (a `none` field is an absent key in the JS object). -/
structure SessionPatch where
  title : Option String
deriving DecidableEq, Repr

/-- Spreading a patch over a session (`{...session, ...updates}`). -/
def applyPatch (s : AISession) (p : SessionPatch) : AISession :=
  { s with title := p.title.getD s.title }

/-- tokens field reached by `message.metadata?.tokens`. -/
def tokensField (m : AIMessage) : Option Nat :=
  m.metadata.bind (·.tokens)

/-- cost field reached by `message.metadata?.cost`. -/
def costField (m : AIMessage) : Option ℚ :=
  m.metadata.bind (·.cost)

/-- The in-place message append plus metadata recomputation performed by
sessionStorage.addMessage on the targeted session: push the message, set
updatedAt, and if a metadata record exists set messageCount to the new
message-list length, refresh lastActivity, and add the message's token
count / cost when those are truthy (present and nonzero). -/
def applyAddMessage (now : Timestamp) (msg : AIMessage) (s : AISession) : AISession :=
  let messages' := s.messages ++ [msg]
  { s with
    messages := messages'
    updatedAt := now
    metadata := s.metadata.map (fun md =>
      { md with
        messageCount := messages'.length
        lastActivity := now
        totalTokens :=
          match tokensField msg with
          | some t => if t = 0 then md.totalTokens else md.totalTokens + t
          | none => md.totalTokens
        totalCost :=
          match costField msg with
          | some c => if c = 0 then md.totalCost else md.totalCost + c
          | none => md.totalCost }) }

namespace sessionStorage

/-- sessionStorage.getSessions: all stored sessions of one project;
an absent or unparseable blob reads as no sessions. -/
def getSessions (projectId : String) : SessionsBlob → List AISession
  | .absent => []
  | .corrupt => []
  | .val l => l.filter (fun s => s.projectId = projectId)

/-- sessionStorage.saveSessions: drop the stored sessions of the given
project and append the new list; report failure only when the stored
blob is unparseable (JSON.parse throws inside the try block). -/
def saveSessions (projectId : String) (sessions : List AISession) :
    SessionsBlob → Bool × SessionsBlob
  | .absent => (true, .val (List.filter (fun s => ¬(s.projectId = projectId)) [] ++ sessions))
  | .corrupt => (false, .corrupt)
  | .val l => (true, .val (l.filter (fun s => ¬(s.projectId = projectId)) ++ sessions))

/-- sessionStorage.getSession: first stored session with the given id. -/
def getSession (sessionId : String) : SessionsBlob → Option AISession
  | .absent => none
  | .corrupt => none
  | .val l => l.find? (fun s => s.id = sessionId)

/-- sessionStorage.updateSession: spread the patch over the first stored
session with the given id and stamp updatedAt; false when the blob is
absent or unparseable or the id is not found. -/
def updateSession (now : Timestamp) (sessionId : String) (patch : SessionPatch) :
    SessionsBlob → Bool × SessionsBlob
  | .absent => (false, .absent)
  | .corrupt => (false, .corrupt)
  | .val l =>
    match modifyFirst (fun s => s.id = sessionId)
        (fun s => { applyPatch s patch with updatedAt := now }) l with
    | none => (false, .val l)
    | some l' => (true, .val l')

/-- sessionStorage.deleteSession: remove every stored session with the
given id; false when the blob is absent or unparseable. -/
def deleteSession (sessionId : String) : SessionsBlob → Bool × SessionsBlob
  | .absent => (false, .absent)
  | .corrupt => (false, .corrupt)
  | .val l => (true, .val (l.filter (fun s => ¬(s.id = sessionId))))

/-- sessionStorage.addMessage: append the message to the first stored
session with the given id and recompute its aggregate metadata; false
when the blob is absent or unparseable or the id is not found. -/
def addMessage (now : Timestamp) (sessionId : String) (msg : AIMessage) :
    SessionsBlob → Bool × SessionsBlob
  | .absent => (false, .absent)
  | .corrupt => (false, .corrupt)
  | .val l =>
    match modifyFirst (fun s => s.id = sessionId) (applyAddMessage now msg) l with
    | none => (false, .val l)
    | some l' => (true, .val l')

/-- sessionStorage.getActiveSession: the active-session id recorded for a
project (`map[projectId] || null`, so an empty id reads as none). -/
def getActiveSession (projectId : String) : ActiveBlob → Option String
  | .absent => none
  | .corrupt => none
  | .val m =>
    match m.find? (fun e => e.1 = projectId) with
    | some e => if e.2 = "" then none else some e.2
    | none => none

/-- sessionStorage.setActiveSession: record the active session id for a
project; false when the existing blob is unparseable. -/
def setActiveSession (projectId sessionId : String) : ActiveBlob → Bool × ActiveBlob
  | .absent => (true, .val (setKey projectId sessionId []))
  | .corrupt => (false, .corrupt)
  | .val m => (true, .val (setKey projectId sessionId m))

/-- sessionStorage.clearActiveSession: delete the project's entry; an
absent blob is already clear (true), an unparseable one reports false. -/
def clearActiveSession (projectId : String) : ActiveBlob → Bool × ActiveBlob
  | .absent => (true, .absent)
  | .corrupt => (false, .corrupt)
  | .val m => (true, .val (m.filter (fun e => ¬(e.1 = projectId))))

end sessionStorage

/-- The `ai_rate_limit_{service}` slot: the recorded request timestamps
(the lastReset field of the stored object is never read, so it is not
carried). -/
abbrev RateBlob := Blob (List Timestamp)

namespace rateLimiter

/-- rateLimiter.canMakeRequest at time `now`: on first use record the
request; on an unparseable slot allow without recording (the catch
branch); otherwise keep the timestamps of the trailing 60-second window,
deny when 60 or more remain (leaving the slot untouched), and otherwise
record the request as the filtered window plus `now`. -/
def canMakeRequest (now : Timestamp) : RateBlob → Bool × RateBlob
  | .absent => (true, .val [now])
  | .corrupt => (true, .corrupt)
  | .val reqs =>
    let recent := reqs.filter (fun t => decide (now - 60 * 1000 < t))
    if 60 ≤ recent.length then (false, .val reqs)
    else (true, .val (recent ++ [now]))

/-- rateLimiter.getRemainingRequests at time `now`: 60 minus the number
of timestamps in the trailing 60-second window, clamped at 0; performs
no write, so the slot is returned unchanged. -/
def getRemainingRequests (now : Timestamp) : RateBlob → Nat × RateBlob
  | .absent => (60, .absent)
  | .corrupt => (60, .corrupt)
  | .val reqs =>
    let recent := reqs.filter (fun t => decide (now - 60 * 1000 < t))
    ((max 0 (60 - (recent.length : Int))).toNat, .val reqs)

end rateLimiter

/-! ## Helper lemmas about the list-update idioms -/

lemma modifyFirst_isSome (p : α → Bool) (f : α → α) :
    ∀ l : List α, (modifyFirst p f l).isSome = l.any p := by
  intro l
  induction l with
  | nil => rfl
  | cons a t ih =>
    by_cases h : p a = true
    · simp [modifyFirst, h]
    · simp [modifyFirst, h, ih]

lemma modifyFirst_find? (p : α → Bool) (f : α → α)
    (hf : ∀ a, p a = true → p (f a) = true) :
    ∀ {l l' : List α}, modifyFirst p f l = some l' →
      ∀ {a}, l.find? p = some a → l'.find? p = some (f a) := by
  intro l
  induction l with
  | nil => intro l' h; simp [modifyFirst] at h
  | cons x t ih =>
    intro l' h a ha
    by_cases hx : p x = true
    · rw [List.find?_cons_of_pos _ hx] at ha
      simp only [modifyFirst, if_pos hx] at h
      obtain rfl := Option.some.inj h
      obtain rfl := Option.some.inj ha
      rw [List.find?_cons_of_pos _ (hf x hx)]
    · rw [List.find?_cons_of_neg _ hx] at ha
      simp only [modifyFirst, if_neg hx] at h
      cases ht : modifyFirst p f t with
      | none => rw [ht] at h; simp at h
      | some t' =>
        rw [ht] at h
        simp only [Option.map_some'] at h
        obtain rfl := Option.some.inj h.symm
        rw [List.find?_cons_of_neg _ hx]
        exact ih ht ha

/-! ## Test fixtures (concrete values used by witnesses and counterexamples) -/

/-- A concrete session with the given id, project and stored message
count, no messages, used to instantiate the theorems below. -/
def testSession (sid pid : String) (mc : Nat) : AISession :=
  { id := sid, title := "t", projectId := pid, service := .openAI, model := none
    messages := [], createdAt := 0, updatedAt := 0, isActive := true
    metadata := some { totalTokens := 0, totalCost := 0, messageCount := mc, lastActivity := 0 } }

/-- A concrete message without usage metadata. -/
def msgPlain : AIMessage :=
  { id := "m1", role := .user, content := "hi", timestamp := 1, metadata := none }

/-- A concrete message reporting 10 tokens and cost 1/100. -/
def msgUsage : AIMessage :=
  { id := "m2", role := .assistant, content := "ok", timestamp := 2
    metadata := some { tokens := some 10, model := none, cost := some (1/100), processingTime := none } }

/-! ## C10: saveSessions frame property -/

/-- C10: sessionStorage.saveSessions(p, ss) leaves every stored session of
another project unchanged and replaces exactly the stored sessions of
project p: the stored collection afterwards is the other-project sessions
(in order) followed by ss. -/
theorem saveSessions_frame (projectId : String) (ss l : List AISession) :
    sessionStorage.saveSessions projectId ss (Blob.val l)
      = (true, Blob.val (l.filter (fun s => ¬(s.projectId = projectId)) ++ ss))
    ∧ (∀ s ∈ l, s.projectId ≠ projectId →
        s ∈ l.filter (fun s => ¬(s.projectId = projectId)) ++ ss) := by
  refine ⟨rfl, ?_⟩
  intro s hs hne
  exact List.mem_append_left _ (List.mem_filter.2 ⟨hs, by simpa using hne⟩)

/-- Witness for C10 at a concrete storage state. -/
theorem saveSessions_frame_witness :
    testSession "a" "p1" 0 ∈ ([testSession "a" "p1" 0] : List AISession)
    ∧ (testSession "a" "p1" 0).projectId ≠ "p2"
    ∧ testSession "a" "p1" 0
        ∈ ([testSession "a" "p1" 0].filter (fun s => ¬(s.projectId = "p2"))
            ++ [testSession "b" "p2" 0]) :=
  ⟨by decide, by decide,
    (saveSessions_frame "p2" [testSession "b" "p2" 0] [testSession "a" "p1" 0]).2
      (testSession "a" "p1" 0) (by decide) (by decide)⟩

/-! ## C7: failure semantics of the storage-layer session operations -/

/-- C7 counterexample: sessionStorage.addMessage reports failure on an
absent (hence trivially parseable-or-absent) stored state, refuting the
claim that only unparseable JSON makes an operation report failure. -/
theorem addMessage_absent_fails :
    (sessionStorage.addMessage 0 "s1" msgPlain Blob.absent).1 = false := rfl

/-- C7 amended: an operation reports failure exactly in these cases —
updateSession and addMessage fail when the stored blob is unparseable or
absent or the session id is not found (success otherwise); deleteSession
fails when the blob is unparseable or absent and succeeds on every
parseable blob. -/
theorem storage_failure_characterization (now : Timestamp) (sid : String)
    (patch : SessionPatch) (msg : AIMessage) :
    ((sessionStorage.updateSession now sid patch Blob.absent).1 = false)
  ∧ ((sessionStorage.updateSession now sid patch Blob.corrupt).1 = false)
  ∧ (∀ l, (sessionStorage.updateSession now sid patch (Blob.val l)).1
        = l.any (fun s => s.id = sid))
  ∧ ((sessionStorage.addMessage now sid msg Blob.absent).1 = false)
  ∧ ((sessionStorage.addMessage now sid msg Blob.corrupt).1 = false)
  ∧ (∀ l, (sessionStorage.addMessage now sid msg (Blob.val l)).1
        = l.any (fun s => s.id = sid))
  ∧ ((sessionStorage.deleteSession sid Blob.absent).1 = false)
  ∧ ((sessionStorage.deleteSession sid Blob.corrupt).1 = false)
  ∧ (∀ l, (sessionStorage.deleteSession sid (Blob.val l)).1 = true) := by
  refine ⟨rfl, rfl, ?_, rfl, rfl, ?_, rfl, rfl, fun l => rfl⟩
  · intro l
    rw [← modifyFirst_isSome (fun s => s.id = sid)
      (fun s => { applyPatch s patch with updatedAt := now }) l]
    cases h : modifyFirst (fun s => s.id = sid)
        (fun s => { applyPatch s patch with updatedAt := now }) l with
    | none => simp [sessionStorage.updateSession, h]
    | some l' => simp [sessionStorage.updateSession, h]
  · intro l
    rw [← modifyFirst_isSome (fun s => s.id = sid) (applyAddMessage now msg) l]
    cases h : modifyFirst (fun s => s.id = sid) (applyAddMessage now msg) l with
    | none => simp [sessionStorage.addMessage, h]
    | some l' => simp [sessionStorage.addMessage, h]

/-! ## C1: message append and aggregate metadata -/

/-- Token contribution of one appended message to totalTokens (missing
metadata contributes zero). -/
def tokenContribution (m : AIMessage) : Nat :=
  (tokensField m).getD 0

/-- Cost contribution of one appended message to totalCost (missing
metadata contributes zero). -/
def costContribution (m : AIMessage) : ℚ :=
  (costField m).getD 0

/-- Iterating sessionStorage.addMessage over a sequence of (time,
message) calls, threading the stored blob. -/
def addMessages (sid : String) (calls : List (Timestamp × AIMessage))
    (b : SessionsBlob) : SessionsBlob :=
  calls.foldl (fun b c => (sessionStorage.addMessage c.1 sid c.2 b).2) b

/-- Every call in the iterated sequence returned true. -/
def allSucceed (sid : String) : List (Timestamp × AIMessage) → SessionsBlob → Bool
  | [], _ => true
  | c :: cs, b =>
    (sessionStorage.addMessage c.1 sid c.2 b).1
      && allSucceed sid cs (sessionStorage.addMessage c.1 sid c.2 b).2

/-- The session-level effect of one whole call sequence. -/
def applySeq (s : AISession) (calls : List (Timestamp × AIMessage)) : AISession :=
  calls.foldl (fun s c => applyAddMessage c.1 c.2 s) s

lemma applyAddMessage_id (now : Timestamp) (msg : AIMessage) (s : AISession) :
    (applyAddMessage now msg s).id = s.id := rfl

lemma addMessage_val_step (now : Timestamp) (sid : String) (msg : AIMessage)
    {l : List AISession} {s : AISession}
    (h : l.find? (fun x => x.id = sid) = some s) :
    ∃ l', sessionStorage.addMessage now sid msg (Blob.val l) = (true, Blob.val l')
      ∧ l'.find? (fun x => x.id = sid) = some (applyAddMessage now msg s) := by
  have hmem := List.mem_of_find?_eq_some h
  have hps : s.id = sid := by simpa using List.find?_some h
  have hsome : (modifyFirst (fun x => x.id = sid) (applyAddMessage now msg) l).isSome = true := by
    rw [modifyFirst_isSome]
    exact List.any_eq_true.2 ⟨s, hmem, by simpa using hps⟩
  cases hm : modifyFirst (fun x => x.id = sid) (applyAddMessage now msg) l with
  | none => rw [hm] at hsome; simp at hsome
  | some l' =>
    refine ⟨l', ?_, ?_⟩
    · simp [sessionStorage.addMessage, hm]
    · exact modifyFirst_find? _ _ (fun a ha => by simpa [applyAddMessage_id] using ha) hm h

lemma addMessages_find (sid : String) (calls : List (Timestamp × AIMessage)) :
    ∀ {l : List AISession} {s : AISession},
      l.find? (fun x => x.id = sid) = some s →
      ∃ l', addMessages sid calls (Blob.val l) = Blob.val l'
        ∧ l'.find? (fun x => x.id = sid) = some (applySeq s calls)
        ∧ allSucceed sid calls (Blob.val l) = true := by
  induction calls with
  | nil => intro l s h; exact ⟨l, rfl, h, rfl⟩
  | cons c cs ih =>
    intro l s h
    obtain ⟨l1, h1, hfind⟩ := addMessage_val_step c.1 sid c.2 h
    obtain ⟨l', h2, h3, h4⟩ := ih hfind
    refine ⟨l', ?_, ?_, ?_⟩
    · rw [addMessages, List.foldl_cons, h1]
      exact h2
    · rw [applySeq, List.foldl_cons]
      exact h3
    · rw [allSucceed, h1]
      simpa using h4

lemma totalTokens_update (msg : AIMessage) (n : Nat) :
    (match tokensField msg with
      | some t => if t = 0 then n else n + t
      | none => n) = n + tokenContribution msg := by
  unfold tokenContribution
  cases h : tokensField msg with
  | none => simp
  | some t =>
    by_cases ht : t = 0
    · simp [ht]
    · simp

lemma totalCost_update (msg : AIMessage) (q : ℚ) :
    (match costField msg with
      | some c => if c = 0 then q else q + c
      | none => q) = q + costContribution msg := by
  unfold costContribution
  cases h : costField msg with
  | none => simp
  | some c =>
    by_cases hc : c = 0
    · simp [hc]
    · simp

lemma applyAddMessage_metadata (now : Timestamp) (msg : AIMessage)
    {s : AISession} {md : SessionMetadata} (h : s.metadata = some md) :
    (applyAddMessage now msg s).messages = s.messages ++ [msg]
  ∧ (applyAddMessage now msg s).metadata = some
      { totalTokens := md.totalTokens + tokenContribution msg
        totalCost := md.totalCost + costContribution msg
        messageCount := s.messages.length + 1
        lastActivity := now } := by
  refine ⟨rfl, ?_⟩
  simp only [applyAddMessage, h, Option.map_some', Option.some.injEq]
  simp [SessionMetadata.mk.injEq, totalTokens_update, totalCost_update]

lemma applySeq_metadata (calls : List (Timestamp × AIMessage)) :
    ∀ (s : AISession) (md : SessionMetadata), s.metadata = some md →
      (applySeq s calls).messages = s.messages ++ calls.map (·.2)
    ∧ ∃ md', (applySeq s calls).metadata = some md'
        ∧ md'.totalTokens
            = md.totalTokens + (calls.map (fun c => tokenContribution c.2)).sum
        ∧ md'.totalCost
            = md.totalCost + (calls.map (fun c => costContribution c.2)).sum
        ∧ (calls ≠ [] → md'.messageCount = (applySeq s calls).messages.length)
        ∧ (calls = [] → md' = md) := by
  induction calls with
  | nil =>
    intro s md h
    exact ⟨by simp [applySeq], md, h, by simp, by simp, by simp [applySeq], fun _ => rfl⟩
  | cons c cs ih =>
    intro s md h
    obtain ⟨hmsgs, hmeta⟩ := applyAddMessage_metadata c.1 c.2 h
    obtain ⟨hmsgs', md', hm', htok, hcost, hcount, hnil⟩ := ih (applyAddMessage c.1 c.2 s) _ hmeta
    have hseq : applySeq s (c :: cs) = applySeq (applyAddMessage c.1 c.2 s) cs := by
      rw [applySeq, List.foldl_cons]; rfl
    refine ⟨?_, md', ?_, ?_, ?_, ?_, ?_⟩
    · rw [hseq, hmsgs', hmsgs]
      simp
    · rw [hseq]; exact hm'
    · rw [htok]; simp [add_assoc]
    · rw [hcost]; simp [add_assoc]
    · intro _
      by_cases hcs : cs = []
      · subst hcs
        have hmd : md' = _ := hnil rfl
        rw [hmd, hseq, applySeq, List.foldl_nil, hmsgs]
        simp
      · rw [hseq]
        exact hcount hcs
    · intro hfalse
      exact absurd hfalse (List.cons_ne_nil c cs)

/-- C1 counterexample: with the empty call sequence the claim fails — a
stored session whose metadata record is initially inconsistent (here
messageCount 1 with no messages) still has messageCount different from
its number of messages after the (empty) sequence of calls. -/
theorem addMessages_empty_counterexample :
    addMessages "s1" [] (Blob.val [testSession "s1" "p" 1]) = Blob.val [testSession "s1" "p" 1]
  ∧ ([testSession "s1" "p" 1].find? (fun x => x.id = "s1") = some (testSession "s1" "p" 1))
  ∧ ∃ md, (testSession "s1" "p" 1).metadata = some md
      ∧ md.messageCount ≠ (testSession "s1" "p" 1).messages.length :=
  ⟨rfl, by decide, ⟨_, rfl, by decide⟩⟩

/-- C1 (amended to non-empty call sequences): for a stored session with a
metadata record, every sequence of sessionStorage.addMessage calls on its
id succeeds, appends exactly the given messages in order, and — for a
non-empty sequence — leaves messageCount equal to the session's total
number of messages and totalTokens/totalCost equal to their initial
values plus the sums of the messages' token/cost metadata (a missing
token/cost entry contributing zero). -/
theorem addMessage_aggregates (sid : String) (calls : List (Timestamp × AIMessage))
    (l : List AISession) (s : AISession) (md : SessionMetadata)
    (hfind : l.find? (fun x => x.id = sid) = some s)
    (hmd : s.metadata = some md) (hne : calls ≠ []) :
    allSucceed sid calls (Blob.val l) = true
  ∧ ∃ l' md', addMessages sid calls (Blob.val l) = Blob.val l'
      ∧ l'.find? (fun x => x.id = sid) = some (applySeq s calls)
      ∧ (applySeq s calls).messages = s.messages ++ calls.map (·.2)
      ∧ (applySeq s calls).metadata = some md'
      ∧ md'.messageCount = (applySeq s calls).messages.length
      ∧ md'.totalTokens = md.totalTokens + (calls.map (fun c => tokenContribution c.2)).sum
      ∧ md'.totalCost = md.totalCost + (calls.map (fun c => costContribution c.2)).sum := by
  obtain ⟨l', h1, h2, h3⟩ := addMessages_find sid calls hfind
  obtain ⟨hm, md', hmeta, htok, hcost, hcount, _⟩ := applySeq_metadata calls s md hmd
  exact ⟨h3, l', md', h1, h2, hm, hmeta, hcount hne, htok, hcost⟩

/-- Witness for C1 at a concrete stored session and one concrete call. -/
theorem addMessage_aggregates_witness :
    ([testSession "s1" "p" 0].find? (fun x => x.id = "s1") = some (testSession "s1" "p" 0))
  ∧ ((testSession "s1" "p" 0).metadata
      = some { totalTokens := 0, totalCost := 0, messageCount := 0, lastActivity := 0 })
  ∧ ([((5 : Timestamp), msgUsage)] ≠ [])
  ∧ (allSucceed "s1" [((5 : Timestamp), msgUsage)] (Blob.val [testSession "s1" "p" 0]) = true
    ∧ ∃ l' md',
        addMessages "s1" [((5 : Timestamp), msgUsage)] (Blob.val [testSession "s1" "p" 0])
          = Blob.val l'
      ∧ l'.find? (fun x => x.id = "s1")
          = some (applySeq (testSession "s1" "p" 0) [((5 : Timestamp), msgUsage)])
      ∧ (applySeq (testSession "s1" "p" 0) [((5 : Timestamp), msgUsage)]).messages
          = (testSession "s1" "p" 0).messages ++ [((5 : Timestamp), msgUsage)].map (·.2)
      ∧ (applySeq (testSession "s1" "p" 0) [((5 : Timestamp), msgUsage)]).metadata = some md'
      ∧ md'.messageCount
          = (applySeq (testSession "s1" "p" 0) [((5 : Timestamp), msgUsage)]).messages.length
      ∧ md'.totalTokens
          = 0 + ([((5 : Timestamp), msgUsage)].map (fun c => tokenContribution c.2)).sum
      ∧ md'.totalCost
          = 0 + ([((5 : Timestamp), msgUsage)].map (fun c => costContribution c.2)).sum) :=
  ⟨by decide, rfl, by decide,
    addMessage_aggregates "s1" [((5 : Timestamp), msgUsage)] [testSession "s1" "p" 0]
      (testSession "s1" "p" 0)
      { totalTokens := 0, totalCost := 0, messageCount := 0, lastActivity := 0 }
      (by decide) rfl (by decide)⟩

/-! ## C3: rate limiter window behaviour -/

/-- C3 counterexample: a denied canMakeRequest call does not record the
attempt — with 60 in-window timestamps stored, the call returns false
and leaves the slot exactly as it was, not read-filter-append-written. -/
theorem canMakeRequest_denied_counterexample :
    (rateLimiter.canMakeRequest 100000 (Blob.val (List.replicate 60 (99999 : Timestamp)))).1
      = false
  ∧ (rateLimiter.canMakeRequest 100000 (Blob.val (List.replicate 60 (99999 : Timestamp)))).2
      = Blob.val (List.replicate 60 (99999 : Timestamp))
  ∧ (Blob.val (List.replicate 60 (99999 : Timestamp)) : RateBlob)
      ≠ Blob.val ((List.replicate 60 (99999 : Timestamp)).filter
          (fun t => decide ((100000 : Timestamp) - 60000 < t)) ++ [(100000 : Timestamp)]) := by
  refine ⟨?_, ?_, ?_⟩ <;> decide

/-- C3 (amended): with 60 recorded timestamps inside the trailing
60-second window the next canMakeRequest call returns false; once every
recorded timestamp is older than 60 seconds it returns true again; a
GRANTED call records the attempt in one step as the window-filtered
timestamps plus the current time, while a denied call leaves the slot
unchanged; getRemainingRequests never modifies the stored state. -/
theorem canMakeRequest_window (now : Timestamp) (reqs : List Timestamp) :
    ((reqs.filter (fun t => decide (now - 60000 < t))).length = 60 →
        (rateLimiter.canMakeRequest now (Blob.val reqs)).1 = false)
  ∧ ((∀ t ∈ reqs, t ≤ now - 60000) →
        (rateLimiter.canMakeRequest now (Blob.val reqs)).1 = true)
  ∧ ((rateLimiter.canMakeRequest now (Blob.val reqs)).1 = true →
        (rateLimiter.canMakeRequest now (Blob.val reqs)).2
          = Blob.val (reqs.filter (fun t => decide (now - 60000 < t)) ++ [now]))
  ∧ ((rateLimiter.canMakeRequest now (Blob.val reqs)).1 = false →
        (rateLimiter.canMakeRequest now (Blob.val reqs)).2 = Blob.val reqs)
  ∧ (rateLimiter.getRemainingRequests now (Blob.val reqs)).2 = Blob.val reqs := by
  refine ⟨?_, ?_, ?_, ?_, rfl⟩
  · intro h
    simp [rateLimiter.canMakeRequest, h]
  · intro h
    have hfil : reqs.filter (fun t => decide (now - 60000 < t)) = [] := by
      rw [List.filter_eq_nil_iff]
      intro t ht
      simpa using not_lt.2 (h t ht)
    simp [rateLimiter.canMakeRequest, hfil]
  · intro h
    by_cases hlen : 60 ≤ (reqs.filter (fun t => decide (now - 60000 < t))).length
    · simp [rateLimiter.canMakeRequest, hlen] at h
    · simp [rateLimiter.canMakeRequest, hlen]
  · intro h
    by_cases hlen : 60 ≤ (reqs.filter (fun t => decide (now - 60000 < t))).length
    · simp [rateLimiter.canMakeRequest, hlen]
    · simp [rateLimiter.canMakeRequest, hlen] at h

/-- Witness for C3: full window at time 100000 denies; a single stale
timestamp allows again. -/
theorem canMakeRequest_window_witness :
    (((List.replicate 60 (99999 : Timestamp)).filter
        (fun t => decide ((100000 : Timestamp) - 60000 < t))).length = 60
      ∧ (rateLimiter.canMakeRequest 100000
          (Blob.val (List.replicate 60 (99999 : Timestamp)))).1 = false)
  ∧ ((∀ t ∈ [(1 : Timestamp)], t ≤ (100000 : Timestamp) - 60000)
      ∧ (rateLimiter.canMakeRequest 100000 (Blob.val [(1 : Timestamp)])).1 = true) :=
  ⟨⟨by decide, (canMakeRequest_window 100000 (List.replicate 60 (99999 : Timestamp))).1 (by decide)⟩,
   ⟨by decide, (canMakeRequest_window 100000 [(1 : Timestamp)]).2.1 (by decide)⟩⟩

/-! ## C4: credential obfuscation (useProjects.ts settings half)

JS strings are modelled here as lists of UTF-16 code units.  The browser
builtins btoa/atob are modelled by an executable base64 codec: btoa is
defined exactly on Latin-1 strings (on any other input the real btoa
throws InvalidCharacterError, modelled as none), and atob is modelled on
canonical padded base64 output (any other input is rejected as none,
which encryptApiKey's caller-side catch turns into the empty string). -/

/-- The 64 base64 alphabet characters as code units. -/
def b64Alphabet : List Nat :=
  ("ABCDEFGHIJKLMNOPQRSTUVWXYZabcdefghijklmnopqrstuvwxyz0123456789+/".toList).map Char.toNat

/-- Code unit of the base64 padding character. -/
def padCode : Nat := 61

/-- The alphabet character for a 6-bit value. -/
def b64Char (n : Nat) : Nat := b64Alphabet.getD n 0

/-- The 6-bit value of an alphabet character. -/
def b64Val (c : Nat) : Option Nat := b64Alphabet.findIdx? (fun x => x = c)

/-- Base64-encode a byte list (RFC 4648 with padding, the encoding btoa
produces). -/
def encodeB64 : List Nat → List Nat
  | [] => []
  | [a] => [b64Char (a / 4), b64Char (a % 4 * 16), padCode, padCode]
  | [a, b] => [b64Char (a / 4), b64Char (a % 4 * 16 + b / 16), b64Char (b % 16 * 4), padCode]
  | a :: b :: c :: rest =>
    b64Char (a / 4) :: b64Char (a % 4 * 16 + b / 16) :: b64Char (b % 16 * 4 + c / 64)
      :: b64Char (c % 64) :: encodeB64 rest

/-- Base64-decode a canonical padded base64 code-unit list. -/
def decodeB64 : List Nat → Option (List Nat)
  | [] => some []
  | c1 :: c2 :: c3 :: c4 :: rest =>
    if c3 = padCode ∧ c4 = padCode ∧ rest = [] then
      match b64Val c1, b64Val c2 with
      | some v1, some v2 => some [v1 * 4 + v2 / 16]
      | _, _ => none
    else if c4 = padCode ∧ rest = [] then
      match b64Val c1, b64Val c2, b64Val c3 with
      | some v1, some v2, some v3 => some [v1 * 4 + v2 / 16, v2 % 16 * 16 + v3 / 4]
      | _, _, _ => none
    else
      match b64Val c1, b64Val c2, b64Val c3, b64Val c4 with
      | some v1, some v2, some v3, some v4 =>
        (decodeB64 rest).map
          (fun tail => (v1 * 4 + v2 / 16) :: (v2 % 16 * 16 + v3 / 4) :: (v3 % 4 * 64 + v4) :: tail)
      | _, _, _, _ => none
  | _ => none

/-- The browser btoa builtin: defined exactly when every code unit is
Latin-1, throwing (none) otherwise. -/
def btoa (s : List Nat) : Option (List Nat) :=
  if s.all (fun b => b < 256) then some (encodeB64 s) else none

/-- The browser atob builtin, modelled on canonical padded base64. -/
def atob (s : List Nat) : Option (List Nat) := decodeB64 s

/-- encryptApiKey from useProjects.ts: empty key maps to the empty
string, otherwise btoa then character reversal (none = btoa threw). -/
def encryptApiKey (key : List Nat) : Option (List Nat) :=
  if key = [] then some [] else (btoa key).map List.reverse

/-- decryptApiKey from useProjects.ts: empty input maps to the empty
string, otherwise reverse then atob, with the catch branch turning an
atob throw into the empty string. -/
def decryptApiKey (ek : List Nat) : List Nat :=
  if ek = [] then []
  else match atob ek.reverse with
    | some s => s
    | none => []


lemma b64Val_b64Char : ∀ n < 64, b64Val (b64Char n) = some n := by decide

lemma b64Char_ne_pad : ∀ n < 64, b64Char n ≠ padCode := by decide

example : decodeB64 (encodeB64 []) = some [] := rfl
example : decodeB64 (encodeB64 [104, 105]) = some [104, 105] := by decide
example : decodeB64 (encodeB64 [1,2,3,4]) = some [1,2,3,4] := by decide

lemma div16_lin (x r : Nat) : (x * 16 + r) / 16 = x + r / 16 := by
  rw [Nat.mul_comm, Nat.mul_add_div (by norm_num)]

lemma mod16_lin (x r : Nat) : (x * 16 + r) % 16 = r % 16 := by
  rw [Nat.mul_comm, Nat.mul_add_mod]

lemma div4_lin (x r : Nat) : (x * 4 + r) / 4 = x + r / 4 := by
  rw [Nat.mul_comm, Nat.mul_add_div (by norm_num)]

lemma mod4_lin (x r : Nat) : (x * 4 + r) % 4 = r % 4 := by
  rw [Nat.mul_comm, Nat.mul_add_mod]

lemma mul_div16 (x : Nat) : x * 16 / 16 = x := Nat.mul_div_cancel x (by norm_num)

lemma mul_div4 (x : Nat) : x * 4 / 4 = x := Nat.mul_div_cancel x (by norm_num)

lemma decodeB64_encodeB64 : ∀ l : List Nat, (∀ b ∈ l, b < 256) →
    decodeB64 (encodeB64 l) = some l := by
  intro l
  induction l using encodeB64.induct with
  | case1 => intro _; rfl
  | case2 a =>
    intro h
    have ha : a < 256 := h a (by simp)
    have h1 : a / 4 < 64 := by omega
    have h2 : a % 4 * 16 < 64 := by omega
    simp [encodeB64, decodeB64, b64Val_b64Char _ h1, b64Val_b64Char _ h2, mul_div16]
    omega
  | case3 a b =>
    intro h
    have ha : a < 256 := h a (by simp)
    have hb : b < 256 := h b (by simp)
    have h1 : a / 4 < 64 := by omega
    have h2 : a % 4 * 16 + b / 16 < 64 := by omega
    have h3 : b % 16 * 4 < 64 := by omega
    have hne3 : b64Char (b % 16 * 4) ≠ padCode := b64Char_ne_pad _ h3
    simp [encodeB64, decodeB64, hne3,
      b64Val_b64Char _ h1, b64Val_b64Char _ h2, b64Val_b64Char _ h3,
      div16_lin, mod16_lin, mul_div4]
    constructor
    · rw [Nat.div_div_eq_div_mul]
      omega
    · omega
  | case4 a b c rest ih =>
    intro h
    have ha : a < 256 := h a (by simp)
    have hb : b < 256 := h b (by simp)
    have hc : c < 256 := h c (by simp)
    have h1 : a / 4 < 64 := by omega
    have h2 : a % 4 * 16 + b / 16 < 64 := by omega
    have h3 : b % 16 * 4 + c / 64 < 64 := by omega
    have h4 : c % 64 < 64 := by omega
    have hne3 : b64Char (b % 16 * 4 + c / 64) ≠ padCode := b64Char_ne_pad _ h3
    have hne4 : b64Char (c % 64) ≠ padCode := b64Char_ne_pad _ h4
    have hrest : decodeB64 (encodeB64 rest) = some rest :=
      ih (fun x hx => h x (by simp [hx]))
    simp [encodeB64, decodeB64, hne3, hne4, hrest,
      b64Val_b64Char _ h1, b64Val_b64Char _ h2, b64Val_b64Char _ h3, b64Val_b64Char _ h4,
      div16_lin, mod16_lin, div4_lin, mod4_lin]
    refine ⟨?_, ?_, ?_⟩
    · rw [Nat.div_div_eq_div_mul]
      omega
    · rw [Nat.div_div_eq_div_mul]
      omega
    · omega

lemma encodeB64_ne_nil (a : Nat) (t : List Nat) : encodeB64 (a :: t) ≠ [] := by
  match t with
  | [] => simp [encodeB64]
  | [b] => simp [encodeB64]
  | b :: c :: r => simp [encodeB64]

/-- C4 counterexample: the claim quantifies over every non-empty string
key, but a key containing a code unit outside Latin-1 (here U+0100)
makes btoa — and hence encryptApiKey — throw, so the round trip does not
return the key. -/
theorem encryptApiKey_throws_counterexample :
    encryptApiKey [256] = none
  ∧ ¬∃ ek, encryptApiKey [256] = some ek ∧ decryptApiKey ek = [256] := by
  refine ⟨rfl, ?_⟩
  rintro ⟨ek, hek, -⟩
  simp [encryptApiKey, btoa] at hek

/-- C4 (amended to Latin-1 keys): for every non-empty key whose code
units are all below 256 — the domain on which btoa is defined —
obfuscation succeeds and de-obfuscation returns the original key. -/
theorem decrypt_encrypt_roundtrip (key : List Nat) (hne : key ≠ [])
    (hlatin : ∀ b ∈ key, b < 256) :
    ∃ ek, encryptApiKey key = some ek ∧ decryptApiKey ek = key := by
  have hall : key.all (fun b => b < 256) = true := by
    rw [List.all_eq_true]
    intro b hb
    simpa using hlatin b hb
  have hb : btoa key = some (encodeB64 key) := by
    simp [btoa, hall]
  refine ⟨(encodeB64 key).reverse, ?_, ?_⟩
  · simp [encryptApiKey, hne, hb]
  · obtain ⟨a, t, rfl⟩ : ∃ a t, key = a :: t := by
      cases key with
      | nil => exact absurd rfl hne
      | cons a t => exact ⟨a, t, rfl⟩
    have henil : (encodeB64 (a :: t)).reverse ≠ [] := by
      simpa using encodeB64_ne_nil a t
    simp [decryptApiKey, henil, atob, List.reverse_reverse,
      decodeB64_encodeB64 (a :: t) hlatin]

/-- Witness for C4 at the concrete key "abc" (code units 97, 98, 99). -/
theorem decrypt_encrypt_roundtrip_witness :
    (([97, 98, 99] : List Nat) ≠ [] ∧ ∀ b ∈ ([97, 98, 99] : List Nat), b < 256)
  ∧ ∃ ek, encryptApiKey [97, 98, 99] = some ek ∧ decryptApiKey ek = [97, 98, 99] :=
  ⟨⟨by decide, by decide⟩,
    decrypt_encrypt_roundtrip [97, 98, 99] (by decide) (by decide)⟩

/-! ## C9: settings model and load path (settings types module and
useProjects.ts settings half) -/

/-- Theme choices from the settings types module. -/
inductive Theme where
  | light
  | dark
  | system
deriving DecidableEq, Repr

/-- Per-vendor credential block (AIServiceConfig).  The apiKey is a JS
string, modelled as UTF-16 code units so the obfuscation transform
applies to it directly. -/
structure AIServiceConfig where
  name : String
  apiKey : List Nat
  baseUrl : Option String
  enabled : Bool
deriving DecidableEq, Repr

/-- The four credential blocks (AIServices). -/
structure AIServices where
  aider : AIServiceConfig
  claudeCode : AIServiceConfig
  openRouter : AIServiceConfig
  openAI : AIServiceConfig
deriving DecidableEq, Repr

/-- The flat application settings record (AppSettings). -/
structure AppSettings where
  theme : Theme
  aiServices : AIServices
  defaultAIService : AIServiceType
  autoSave : Bool
  autoSaveInterval : Nat
  compactMode : Bool
  showTaskCount : Bool
  enableAnimations : Bool
  enableAutoBackup : Bool
  backupInterval : Nat
  maxBackups : Nat
  sessionTimeout : Nat
  enableSessionHistory : Bool
  maxSessionHistory : Nat
deriving DecidableEq, Repr

/-- DEFAULT_SETTINGS from the settings types module. -/
def DEFAULT_SETTINGS : AppSettings :=
  { theme := .system
    aiServices :=
      { aider := { name := "Aider", apiKey := [], baseUrl := none, enabled := false }
        claudeCode := { name := "Claude Code", apiKey := [], baseUrl := none, enabled := false }
        openRouter := { name := "OpenRouter", apiKey := []
                        baseUrl := some "https://openrouter.ai/api/v1", enabled := false }
        openAI := { name := "OpenAI", apiKey := []
                    baseUrl := some "https://api.openai.com/v1", enabled := false } }
    defaultAIService := .openAI
    autoSave := true
    autoSaveInterval := 30
    compactMode := false
    showTaskCount := true
    enableAnimations := true
    enableAutoBackup := true
    backupInterval := 5
    maxBackups := 10
    sessionTimeout := 60
    enableSessionHistory := true
    maxSessionHistory := 50 }

/-- decryptSettings from useProjects.ts: de-obfuscate the four apiKey
fields, leaving everything else as-is. -/
def decryptSettings (s : AppSettings) : AppSettings :=
  { s with aiServices :=
    { aider := { s.aiServices.aider with apiKey := decryptApiKey s.aiServices.aider.apiKey }
      claudeCode :=
        { s.aiServices.claudeCode with apiKey := decryptApiKey s.aiServices.claudeCode.apiKey }
      openRouter :=
        { s.aiServices.openRouter with apiKey := decryptApiKey s.aiServices.openRouter.apiKey }
      openAI := { s.aiServices.openAI with apiKey := decryptApiKey s.aiServices.openAI.apiKey } } }

/-- encryptSettings from useProjects.ts: obfuscate the four apiKey
fields; none when btoa throws on one of them. -/
def encryptSettings (s : AppSettings) : Option AppSettings :=
  (encryptApiKey s.aiServices.aider.apiKey).bind fun ka =>
  (encryptApiKey s.aiServices.claudeCode.apiKey).bind fun kc =>
  (encryptApiKey s.aiServices.openRouter.apiKey).bind fun kr =>
  (encryptApiKey s.aiServices.openAI.apiKey).map fun ko =>
  { s with aiServices :=
    { aider := { s.aiServices.aider with apiKey := ka }
      claudeCode := { s.aiServices.claudeCode with apiKey := kc }
      openRouter := { s.aiServices.openRouter with apiKey := kr }
      openAI := { s.aiServices.openAI with apiKey := ko } } }

/-- The `vibe-kanban-settings` slot. -/
abbrev SettingsBlob := Blob AppSettings

/-- The spread `{...DEFAULT_SETTINGS, ...parsed}`: the parsed snapshot is
modelled as a complete settings record, so every default field is
overwritten by it. -/
def mergeDefaults (s : AppSettings) : AppSettings := s

/-- loadSettings from useProjects.ts with no remote backend reachable
(the fetch of the settings endpoint fails and is caught): an absent or
unparseable local snapshot falls back to DEFAULT_SETTINGS, a parsed one
is decrypted and spread over the defaults.  loadSettings performs no
localStorage write, so the slot is returned unchanged. -/
def loadSettings (blob : SettingsBlob) : AppSettings × SettingsBlob :=
  match blob with
  | .absent => (DEFAULT_SETTINGS, .absent)
  | .corrupt => (DEFAULT_SETTINGS, .corrupt)
  | .val s => (mergeDefaults (decryptSettings s), .val s)

/-- C9: with no remote backend present and a fixed local-storage state,
loading settings twice in a row yields the identical settings value —
the first load leaves the storage slot unchanged and the second load
returns the same settings object as the first. -/
theorem loadSettings_idempotent (blob : SettingsBlob) :
    (loadSettings (loadSettings blob).2).1 = (loadSettings blob).1
  ∧ (loadSettings blob).2 = blob := by
  cases blob <;> exact ⟨rfl, rfl⟩

/-! ## The useAISessions hook (src/hooks/useAISessions.ts)

The hook's React state is modelled as an explicit record, and each
operation as a pure transition on (hook state, storage state).  Network
effects (the best-effort backend mirror) are fire-and-forget in the
source — their failure is swallowed — so they do not appear in the state
transition; the backend's answer to the one read (the session fetch in
loadSessions) is an explicit Option argument.  isLoading is omitted:
no claim mentions it and it carries no data. -/

/-- In-memory state of the hook: the session list, the active session
pointer and the error banner. -/
structure HookState where
  sessions : List AISession
  activeSession : Option AISession
  error : Option String
deriving DecidableEq, Repr

/-- The two local-storage slots the hook touches. -/
structure Store where
  sessions : SessionsBlob
  active : ActiveBlob
deriving DecidableEq, Repr

/-- The JS test `activeSession?.id === sessionId`. -/
def activeIdIs (st : HookState) (sessionId : String) : Bool :=
  match st.activeSession with
  | some a => a.id = sessionId
  | none => false

namespace useAISessions

/-- createSession: build the new session, append it to the in-memory
list, persist the project's list, make it active in memory and in the
active-session slot, and return it. -/
def createSession (now : Timestamp) (newId : String) (projectId : String)
    (service : AIServiceType) (title : Option String)
    (st : HookState) (store : Store) : Option AISession × HookState × Store :=
  let newSession := createAISession now newId projectId service title
  let updatedSessions := st.sessions ++ [newSession]
  let sblob := (sessionStorage.saveSessions projectId updatedSessions store.sessions).2
  let ablob := (sessionStorage.setActiveSession projectId newSession.id store.active).2
  (some newSession,
   { sessions := updatedSessions, activeSession := some newSession, error := none },
   { sessions := sblob, active := ablob })

/-- switchSession: fail with an error banner when the id is not in the
in-memory list; otherwise make the found entry active and persist the
active-session pointer. -/
def switchSession (sessionId : String) (projectId : String)
    (st : HookState) (store : Store) : Bool × HookState × Store :=
  match st.sessions.find? (fun s => s.id = sessionId) with
  | none => (false, { st with error := some "Session not found" }, store)
  | some session =>
    let ablob := (sessionStorage.setActiveSession projectId sessionId store.active).2
    (true, { st with activeSession := some session, error := none },
     { store with active := ablob })

/-- deleteSession: drop the id from the in-memory list, persist the
project's list, clear the active pointer if the deleted session was
active, delete the id from the stored collection, and report true. -/
def deleteSession (sessionId : String) (projectId : String)
    (st : HookState) (store : Store) : Bool × HookState × Store :=
  let updatedSessions := st.sessions.filter (fun s => ¬(s.id = sessionId))
  let sblob1 := (sessionStorage.saveSessions projectId updatedSessions store.sessions).2
  let cleared :=
    if activeIdIs st sessionId then
      ((none : Option AISession), (sessionStorage.clearActiveSession projectId store.active).2)
    else (st.activeSession, store.active)
  let sblob2 := (sessionStorage.deleteSession sessionId sblob1).2
  (true, { sessions := updatedSessions, activeSession := cleared.1, error := none },
   { sessions := sblob2, active := cleared.2 })

/-- updateSessionTitle: patch the stored session first; on storage
failure set the error banner and leave the in-memory state alone,
otherwise retitle the in-memory list entry and, if it is the active
session, the active pointer too. -/
def updateSessionTitle (now : Timestamp) (sessionId : String) (title : String)
    (st : HookState) (store : Store) : Bool × HookState × Store :=
  let r := sessionStorage.updateSession now sessionId { title := some title } store.sessions
  if r.1 then
    (true,
     { sessions :=
         st.sessions.map (fun s => if s.id = sessionId then { s with title := title } else s)
       activeSession :=
         if activeIdIs st sessionId then
           st.activeSession.map (fun a => { a with title := title })
         else st.activeSession
       error := none },
     { store with sessions := r.2 })
  else
    (false, { st with error := some "Failed to update session title" },
     { store with sessions := r.2 })

/-- addMessage: append to the stored session first; on storage failure
set the error banner and leave the in-memory state alone, otherwise
apply the same append-and-recompute-metadata update to the in-memory
list entry and, if it is the active session, to the active pointer
(the hook duplicates the storage layer's update logic verbatim). -/
def addMessage (now : Timestamp) (sessionId : String) (msg : AIMessage)
    (st : HookState) (store : Store) : Bool × HookState × Store :=
  let r := sessionStorage.addMessage now sessionId msg store.sessions
  if r.1 then
    (true,
     { sessions :=
         st.sessions.map (fun s => if s.id = sessionId then applyAddMessage now msg s else s)
       activeSession :=
         if activeIdIs st sessionId then st.activeSession.map (applyAddMessage now msg)
         else st.activeSession
       error := none },
     { store with sessions := r.2 })
  else
    (false, { st with error := some "Failed to add message to session" },
     { store with sessions := r.2 })

/-- Merging backend sessions with local ones in loadSessions: every
backend session, then each local session whose id is not among the
backend ones, in order. -/
def mergeSessions (backendSessions localSessions : List AISession) : List AISession :=
  backendSessions ++ localSessions.filter (fun ls => ¬ backendSessions.any (fun s => s.id = ls.id))

/-- loadSessions: read the project's local sessions; if a persisted
active-session id exists, look the session up and make the result (found
or null) active; when the backend fetch succeeds, merge backend and
local sessions and persist the union, otherwise keep the local list. -/
def loadSessions (projectId : String) (backend : Option (List AISession))
    (st : HookState) (store : Store) : HookState × Store :=
  let localSessions := sessionStorage.getSessions projectId store.sessions
  let active0 : Option AISession :=
    match sessionStorage.getActiveSession projectId store.active with
    | some aid => sessionStorage.getSession aid store.sessions
    | none => st.activeSession
  match backend with
  | some backendSessions =>
    let merged := mergeSessions backendSessions localSessions
    let sblob := (sessionStorage.saveSessions projectId merged store.sessions).2
    ({ sessions := merged, activeSession := active0, error := none },
     { store with sessions := sblob })
  | none =>
    ({ sessions := localSessions, activeSession := active0, error := none }, store)

end useAISessions

/-- The C2 invariant: whenever the active session is non-null, the
in-memory session list has an entry with the same id that is equal to
it. -/
def activeConsistent (st : HookState) : Prop :=
  ∀ a, st.activeSession = some a → ∃ e ∈ st.sessions, e.id = a.id ∧ e = a

lemma activeIdIs_iff {st : HookState} {a : AISession} {sid : String}
    (ha : st.activeSession = some a) : activeIdIs st sid = true ↔ a.id = sid := by
  simp [activeIdIs, ha]

/-- C5: for a session id present in the in-memory list, deleteSession(id)
followed by switchSession(id) has the switch fail with the error banner
set; and switchSession fails with the error banner whenever the id is
absent from the in-memory list. -/
theorem deleteSession_then_switchSession (sessionId projectId : String)
    (st : HookState) (store : Store)
    (_h : sessionId ∈ st.sessions.map (·.id)) :
    (useAISessions.deleteSession sessionId projectId st store).1 = true
  ∧ ((useAISessions.switchSession sessionId projectId
        (useAISessions.deleteSession sessionId projectId st store).2.1
        (useAISessions.deleteSession sessionId projectId st store).2.2).1 = false
    ∧ (useAISessions.switchSession sessionId projectId
        (useAISessions.deleteSession sessionId projectId st store).2.1
        (useAISessions.deleteSession sessionId projectId st store).2.2).2.1.error
        = some "Session not found")
  ∧ (∀ (st' : HookState) (store' : Store),
      (∀ s ∈ st'.sessions, s.id ≠ sessionId) →
        (useAISessions.switchSession sessionId projectId st' store').1 = false
      ∧ (useAISessions.switchSession sessionId projectId st' store').2.1.error
          = some "Session not found") := by
  have hgen : ∀ (st' : HookState) (store' : Store),
      (∀ s ∈ st'.sessions, s.id ≠ sessionId) →
        (useAISessions.switchSession sessionId projectId st' store').1 = false
      ∧ (useAISessions.switchSession sessionId projectId st' store').2.1.error
          = some "Session not found" := by
    intro st' store' hall
    have hnone : st'.sessions.find? (fun s => s.id = sessionId) = none := by
      rw [List.find?_eq_none]
      intro x hx
      simpa using hall x hx
    constructor <;> simp [useAISessions.switchSession, hnone]
  refine ⟨rfl, ?_, hgen⟩
  refine hgen _ _ ?_
  intro s hs
  have hmem : s ∈ st.sessions.filter (fun x => ¬(x.id = sessionId)) := by
    simpa [useAISessions.deleteSession] using hs
  simpa using (List.mem_filter.1 hmem).2

/-- Witness for C5 at a concrete one-session state. -/
theorem deleteSession_then_switchSession_witness :
    "s1" ∈ ([testSession "s1" "p" 0] : List AISession).map (·.id)
  ∧ ((useAISessions.deleteSession "s1" "p"
        ⟨[testSession "s1" "p" 0], some (testSession "s1" "p" 0), none⟩
        ⟨Blob.absent, Blob.absent⟩).1 = true
    ∧ (useAISessions.switchSession "s1" "p"
        (useAISessions.deleteSession "s1" "p"
          ⟨[testSession "s1" "p" 0], some (testSession "s1" "p" 0), none⟩
          ⟨Blob.absent, Blob.absent⟩).2.1
        (useAISessions.deleteSession "s1" "p"
          ⟨[testSession "s1" "p" 0], some (testSession "s1" "p" 0), none⟩
          ⟨Blob.absent, Blob.absent⟩).2.2).1 = false) := by
  have hh : "s1" ∈ ([testSession "s1" "p" 0] : List AISession).map (·.id) := by decide
  refine ⟨hh, ?_, ?_⟩
  · exact (deleteSession_then_switchSession "s1" "p"
      ⟨[testSession "s1" "p" 0], some (testSession "s1" "p" 0), none⟩
      ⟨Blob.absent, Blob.absent⟩ hh).1
  · exact (deleteSession_then_switchSession "s1" "p"
      ⟨[testSession "s1" "p" 0], some (testSession "s1" "p" 0), none⟩
      ⟨Blob.absent, Blob.absent⟩ hh).2.1.1

/-- C6: when the backend fetch succeeds, the hook's resulting session
list is the merge — every backend session kept as-is, plus exactly those
local sessions whose id does not occur among the backend ones (backend
wins on id collision) — and this merged list is what saveSessions
persists for the project. -/
theorem loadSessions_merge (projectId : String) (backendSessions l : List AISession)
    (st : HookState) (ab : ActiveBlob) :
    (useAISessions.loadSessions projectId (some backendSessions) st ⟨Blob.val l, ab⟩).1.sessions
      = useAISessions.mergeSessions backendSessions
          (sessionStorage.getSessions projectId (Blob.val l))
  ∧ (useAISessions.loadSessions projectId (some backendSessions) st ⟨Blob.val l, ab⟩).2.sessions
      = Blob.val (l.filter (fun x => ¬(x.projectId = projectId))
          ++ useAISessions.mergeSessions backendSessions
              (sessionStorage.getSessions projectId (Blob.val l)))
  ∧ (∀ r ∈ backendSessions,
        r ∈ useAISessions.mergeSessions backendSessions
              (sessionStorage.getSessions projectId (Blob.val l)))
  ∧ (∀ s, s ∈ useAISessions.mergeSessions backendSessions
              (sessionStorage.getSessions projectId (Blob.val l))
        ↔ s ∈ backendSessions
          ∨ (s ∈ sessionStorage.getSessions projectId (Blob.val l)
              ∧ ∀ r ∈ backendSessions, r.id ≠ s.id)) := by
  refine ⟨rfl, rfl, ?_, ?_⟩
  · intro r hr
    exact List.mem_append_left _ hr
  · intro s
    simp only [useAISessions.mergeSessions, List.mem_append, List.mem_filter,
      List.any_eq_true, decide_eq_true_eq, not_exists, not_and]

/-- Witness for C6 with one backend session and one local-only session. -/
theorem loadSessions_merge_witness :
    testSession "b1" "p" 0 ∈ ([testSession "b1" "p" 0] : List AISession)
  ∧ testSession "b1" "p" 0
      ∈ useAISessions.mergeSessions [testSession "b1" "p" 0]
          (sessionStorage.getSessions "p" (Blob.val [testSession "l1" "p" 0]))
  ∧ (testSession "l1" "p" 0
      ∈ useAISessions.mergeSessions [testSession "b1" "p" 0]
          (sessionStorage.getSessions "p" (Blob.val [testSession "l1" "p" 0]))
      ↔ testSession "l1" "p" 0 ∈ [testSession "b1" "p" 0]
        ∨ (testSession "l1" "p" 0
            ∈ sessionStorage.getSessions "p" (Blob.val [testSession "l1" "p" 0])
          ∧ ∀ r ∈ [testSession "b1" "p" 0], r.id ≠ (testSession "l1" "p" 0).id)) :=
  ⟨by decide,
   (loadSessions_merge "p" [testSession "b1" "p" 0] [testSession "l1" "p" 0]
      ⟨[], none, none⟩ Blob.absent).2.2.1 _ (by decide),
   (loadSessions_merge "p" [testSession "b1" "p" 0] [testSession "l1" "p" 0]
      ⟨[], none, none⟩ Blob.absent).2.2.2 _⟩

lemma activeConsistent_mapUpdate (st : HookState) (h : activeConsistent st)
    (sid : String) (f : AISession → AISession) (_hf : ∀ s, (f s).id = s.id)
    (err : Option String) :
    activeConsistent
      { sessions := st.sessions.map (fun s => if s.id = sid then f s else s)
        activeSession :=
          if activeIdIs st sid then st.activeSession.map f else st.activeSession
        error := err } := by
  intro a ha
  dsimp only at ha ⊢
  by_cases hai : activeIdIs st sid = true
  · rw [if_pos hai] at ha
    cases hact : st.activeSession with
    | none => rw [hact] at ha; simp at ha
    | some a0 =>
      rw [hact, Option.map_some'] at ha
      obtain rfl := Option.some.inj ha
      have ha0 : a0.id = sid := (activeIdIs_iff hact).1 hai
      obtain ⟨e, he, hid, rfl⟩ := h a0 hact
      exact ⟨f e, List.mem_map.2 ⟨e, he, by rw [if_pos ha0]⟩, rfl, rfl⟩
  · rw [if_neg hai] at ha
    obtain ⟨e, he, hid, rfl⟩ := h a ha
    have heid : e.id ≠ sid := fun hcon => hai ((activeIdIs_iff ha).2 hcon)
    exact ⟨e, List.mem_map.2 ⟨e, he, by rw [if_neg heid]⟩, rfl, rfl⟩

/-- C2: assuming the active session and its session-list entry agree
before, they still agree — same id, fully equal entry — after each of
the five mutating hook operations, whatever their arguments and
whatever the storage state. -/
theorem hook_active_consistent
    (now : Timestamp) (newId projectId sessionId title : String)
    (service : AIServiceType) (titleOpt : Option String) (msg : AIMessage)
    (st : HookState) (store : Store) (h : activeConsistent st) :
    activeConsistent
      (useAISessions.createSession now newId projectId service titleOpt st store).2.1
  ∧ activeConsistent (useAISessions.switchSession sessionId projectId st store).2.1
  ∧ activeConsistent (useAISessions.deleteSession sessionId projectId st store).2.1
  ∧ activeConsistent (useAISessions.updateSessionTitle now sessionId title st store).2.1
  ∧ activeConsistent (useAISessions.addMessage now sessionId msg st store).2.1 := by
  refine ⟨?_, ?_, ?_, ?_, ?_⟩
  · intro a ha
    simp only [useAISessions.createSession] at ha ⊢
    obtain rfl := Option.some.inj ha
    exact ⟨createAISession now newId projectId service titleOpt, by simp, rfl, rfl⟩
  · intro a ha
    cases hf : st.sessions.find? (fun s => s.id = sessionId) with
    | none =>
      simp only [useAISessions.switchSession, hf] at ha ⊢
      exact h a ha
    | some s =>
      simp only [useAISessions.switchSession, hf] at ha ⊢
      obtain rfl := Option.some.inj ha
      exact ⟨s, List.mem_of_find?_eq_some hf, rfl, rfl⟩
  · intro a ha
    by_cases hai : activeIdIs st sessionId = true
    · simp only [useAISessions.deleteSession, hai, if_true] at ha
      simp at ha
    · simp only [useAISessions.deleteSession, hai, if_false, Bool.false_eq_true] at ha ⊢
      obtain ⟨e, he, hid, rfl⟩ := h a ha
      have heid : e.id ≠ sessionId := fun hcon => hai ((activeIdIs_iff ha).2 hcon)
      exact ⟨e, List.mem_filter.2 ⟨he, by simpa using heid⟩, rfl, rfl⟩
  · by_cases hr :
      (sessionStorage.updateSession now sessionId { title := some title } store.sessions).1 = true
    · have := activeConsistent_mapUpdate st h sessionId
        (fun a => { a with title := title }) (fun s => rfl) none
      simpa [useAISessions.updateSessionTitle, hr] using this
    · intro a ha
      simp only [useAISessions.updateSessionTitle, if_neg hr] at ha ⊢
      exact h a ha
  · by_cases hr : (sessionStorage.addMessage now sessionId msg store.sessions).1 = true
    · have := activeConsistent_mapUpdate st h sessionId
        (applyAddMessage now msg) (fun s => rfl) none
      simpa [useAISessions.addMessage, hr] using this
    · intro a ha
      simp only [useAISessions.addMessage, if_neg hr] at ha ⊢
      exact h a ha

/-- Witness for C2 at a concrete one-session state whose entry is the
active session. -/
theorem hook_active_consistent_witness :
    activeConsistent ⟨[testSession "s1" "p" 0], some (testSession "s1" "p" 0), none⟩
  ∧ (activeConsistent (useAISessions.createSession 7 "s2" "p" .openAI none
        ⟨[testSession "s1" "p" 0], some (testSession "s1" "p" 0), none⟩
        ⟨Blob.val [testSession "s1" "p" 0], Blob.absent⟩).2.1
    ∧ activeConsistent (useAISessions.switchSession "s1" "p"
        ⟨[testSession "s1" "p" 0], some (testSession "s1" "p" 0), none⟩
        ⟨Blob.val [testSession "s1" "p" 0], Blob.absent⟩).2.1
    ∧ activeConsistent (useAISessions.deleteSession "s1" "p"
        ⟨[testSession "s1" "p" 0], some (testSession "s1" "p" 0), none⟩
        ⟨Blob.val [testSession "s1" "p" 0], Blob.absent⟩).2.1
    ∧ activeConsistent (useAISessions.updateSessionTitle 7 "s1" "new"
        ⟨[testSession "s1" "p" 0], some (testSession "s1" "p" 0), none⟩
        ⟨Blob.val [testSession "s1" "p" 0], Blob.absent⟩).2.1
    ∧ activeConsistent (useAISessions.addMessage 7 "s1" msgUsage
        ⟨[testSession "s1" "p" 0], some (testSession "s1" "p" 0), none⟩
        ⟨Blob.val [testSession "s1" "p" 0], Blob.absent⟩).2.1) := by
  have hinv : activeConsistent ⟨[testSession "s1" "p" 0], some (testSession "s1" "p" 0), none⟩ := by
    intro a ha
    obtain rfl := Option.some.inj ha
    exact ⟨testSession "s1" "p" 0, by simp, rfl, rfl⟩
  exact ⟨hinv, hook_active_consistent 7 "s2" "p" "s1" "new" .openAI none msgUsage
    ⟨[testSession "s1" "p" 0], some (testSession "s1" "p" 0), none⟩
    ⟨Blob.val [testSession "s1" "p" 0], Blob.absent⟩ hinv⟩

/-! ## C8: the server-sent-event streaming parser (aiClients module)

OpenAIClient.streamMessage and OpenRouterClient.streamMessage share one
parsing loop, modelled here over decoded text chunks (JS strings as
lists of chars).  JSON.parse followed by the field access
`parsed.choices[0]?.delta?.content`, wrapped in the loop's try-catch, is
a platform builtin and is abstracted as a parameter
pd : payload -> none (parse/access threw) | some none (no content
field) | some (some s) (content string s); the JS truthiness test
`if (content)` is the emptiness check at the call site. -/

def dataTag : List Char := "data: ".toList

def doneTag : List Char := "[DONE]".toList

/-- The JS `const lines = buffer.split('\n'); buffer = lines.pop() || ''`
pair: the complete lines and the trailing partial line. -/
def splitBuf : List Char → List (List Char) × List Char
  | [] => ([], [])
  | c :: rest =>
    if c = '\n' then ([] :: (splitBuf rest).1, (splitBuf rest).2)
    else
      match splitBuf rest with
      | ([], b) => ([], c :: b)
      | (h :: t, b) => ((c :: h) :: t, b)

/-- The per-line loop body of OpenAIClient.streamMessage and
OpenRouterClient.streamMessage over a batch of complete lines: collect
the yielded deltas and whether the [DONE] sentinel ended the stream. -/
def processLines (pd : List Char → Option (Option (List Char))) :
    List (List Char) → List (List Char) × Bool
  | [] => ([], false)
  | line :: rest =>
    if line.take 6 = dataTag then
      if line.drop 6 = doneTag then ([], true)
      else
        match pd (line.drop 6) with
        | some (some c) =>
          if c = [] then processLines pd rest
          else (c :: (processLines pd rest).1, (processLines pd rest).2)
        | _ => processLines pd rest
    else processLines pd rest

/-- The chunked read loop of streamMessage: concatenate the carried
buffer with the incoming chunk, split off complete lines, process them,
stop at the sentinel, and carry the trailing partial line. -/
def runStream (pd : List Char → Option (Option (List Char))) :
    List (List Char) → List Char → List (List Char)
  | [], _ => []
  | chunk :: chunks, buffer =>
    let parts := splitBuf (buffer ++ chunk)
    let r := processLines pd parts.1
    if r.2 then r.1 else r.1 ++ runStream pd chunks parts.2

def streamMessage (pd : List Char → Option (Option (List Char)))
    (chunks : List (List Char)) : List (List Char) :=
  runStream pd chunks []

lemma splitBuf_no_nl : ∀ s : List Char, '\n' ∉ s → splitBuf s = ([], s) := by
  intro s
  induction s with
  | nil => intro _; rfl
  | cons c rest ih =>
    intro h
    have hc : ¬(c = '\n') := by
      intro hcon; exact h (hcon ▸ List.mem_cons_self c rest)
    have hr : splitBuf rest = ([], rest) := ih (fun hm => h (List.mem_cons_of_mem c hm))
    simp [splitBuf, hc, hr]

lemma splitBuf_snd_no_nl : ∀ s : List Char, '\n' ∉ (splitBuf s).2 := by
  intro s
  induction s with
  | nil => simp [splitBuf]
  | cons c rest ih =>
    by_cases hc : c = '\n'
    · simpa [splitBuf, hc] using ih
    · cases hr : splitBuf rest with
      | mk ls b =>
        cases ls with
        | nil =>
          simp only [splitBuf, hc, if_neg hc, hr]
          intro hm
          rcases List.mem_cons.1 hm with h1 | h2
          · exact hc h1.symm
          · exact ih (by rw [hr]; exact h2)
        | cons h t =>
          simp only [splitBuf, hc, if_neg hc, hr]
          exact (by rw [hr] at ih; exact ih)

lemma splitBuf_cons_nl (rest : List Char) :
    splitBuf ('\n' :: rest) = ([] :: (splitBuf rest).1, (splitBuf rest).2) := by
  simp [splitBuf]

lemma splitBuf_cons_other (c : Char) (hc : ¬(c = '\n')) (rest : List Char) :
    splitBuf (c :: rest)
      = (match splitBuf rest with
          | ([], b) => ([], c :: b)
          | (h :: t, b) => ((c :: h) :: t, b)) := by
  simp [splitBuf, hc]

lemma splitBuf_append : ∀ a b : List Char,
    splitBuf (a ++ b)
      = ((splitBuf a).1 ++ (splitBuf ((splitBuf a).2 ++ b)).1,
         (splitBuf ((splitBuf a).2 ++ b)).2) := by
  intro a
  induction a with
  | nil => intro b; simp [splitBuf]
  | cons c a ih =>
    intro b
    by_cases hc : c = '\n'
    · subst hc
      rw [List.cons_append, splitBuf_cons_nl, splitBuf_cons_nl, ih b]
      simp
    · rw [List.cons_append, splitBuf_cons_other c hc, splitBuf_cons_other c hc, ih b]
      cases ha : splitBuf a with
      | mk ls abuf =>
        cases ls with
        | nil =>
          simp only [List.nil_append]
          cases hx : splitBuf (abuf ++ b) with
          | mk xs xbuf =>
            cases xs with
            | nil =>
              rw [List.cons_append, splitBuf_cons_other c hc, hx]
            | cons xh xt =>
              rw [List.cons_append, splitBuf_cons_other c hc, hx]
        | cons h t =>
          simp

lemma processLines_append (pd : List Char → Option (Option (List Char))) :
    ∀ L1 L2 : List (List Char),
    processLines pd (L1 ++ L2)
      = if (processLines pd L1).2 then processLines pd L1
        else ((processLines pd L1).1 ++ (processLines pd L2).1, (processLines pd L2).2) := by
  intro L1
  induction L1 with
  | nil => intro L2; simp [processLines]
  | cons line rest ih =>
    intro L2
    by_cases h1 : line.take 6 = dataTag
    · by_cases h2 : line.drop 6 = doneTag
      · simp [processLines, h1, h2]
      · cases hpd : pd (line.drop 6) with
        | none => simp [processLines, h1, h2, hpd, ih L2]
        | some o =>
          cases o with
          | none => simp [processLines, h1, h2, hpd, ih L2]
          | some c =>
            by_cases hce : c = []
            · simp [processLines, h1, h2, hpd, hce, ih L2]
            · by_cases hf : (processLines pd rest).2
              · simp [processLines, h1, h2, hpd, hce, ih L2, hf]
              · simp [processLines, h1, h2, hpd, hce, ih L2, hf]
    · simp [processLines, h1, ih L2]

/-- The claim's yielded-delta sequence for a batch of complete lines,
written from the specification text: yield the content field of every
line that starts with "data: " and parses with a content field, skip
malformed or content-free lines, stop at the first [DONE] payload. -/
def specLines (pd : List Char → Option (Option (List Char))) :
    List (List Char) → List (List Char)
  | [] => []
  | line :: rest =>
    if line.take 6 = dataTag then
      if line.drop 6 = doneTag then []
      else
        match pd (line.drop 6) with
        | some (some c) => c :: specLines pd rest
        | _ => specLines pd rest
    else specLines pd rest

/-- The amended per-line sequence: as specLines, but a present-and-empty
content field is also skipped (the code's JS truthiness test). -/
def specLinesA (pd : List Char → Option (Option (List Char))) :
    List (List Char) → List (List Char)
  | [] => []
  | line :: rest =>
    if line.take 6 = dataTag then
      if line.drop 6 = doneTag then []
      else
        match pd (line.drop 6) with
        | some (some c) => if c = [] then specLinesA pd rest else c :: specLinesA pd rest
        | _ => specLinesA pd rest
    else specLinesA pd rest

lemma processLines_fst_specA (pd : List Char → Option (Option (List Char))) :
    ∀ L : List (List Char), (processLines pd L).1 = specLinesA pd L := by
  intro L
  induction L with
  | nil => rfl
  | cons line rest ih =>
    by_cases h1 : line.take 6 = dataTag
    · by_cases h2 : line.drop 6 = doneTag
      · simp [processLines, specLinesA, h1, h2]
      · cases hpd : pd (line.drop 6) with
        | none => simp [processLines, specLinesA, h1, h2, hpd, ih]
        | some o =>
          cases o with
          | none => simp [processLines, specLinesA, h1, h2, hpd, ih]
          | some c =>
            by_cases hce : c = []
            · simp [processLines, specLinesA, h1, h2, hpd, hce, ih]
            · simp [processLines, specLinesA, h1, h2, hpd, hce, ih]
    · simp [processLines, specLinesA, h1, ih]

lemma runStream_join (pd : List Char → Option (Option (List Char))) :
    ∀ (chunks : List (List Char)) (buffer : List Char), '\n' ∉ buffer →
    runStream pd chunks buffer = (processLines pd (splitBuf (buffer ++ chunks.flatten)).1).1 := by
  intro chunks
  induction chunks with
  | nil =>
    intro buffer h
    rw [List.flatten_nil, List.append_nil, splitBuf_no_nl buffer h]
    rfl
  | cons chunk chunks ih =>
    intro buffer h
    rw [List.flatten_cons, ← List.append_assoc,
      splitBuf_append (buffer ++ chunk) chunks.flatten, processLines_append]
    by_cases hf : (processLines pd (splitBuf (buffer ++ chunk)).1).2
    · simp [runStream, hf]
    · simp [runStream, hf, ih _ (splitBuf_snd_no_nl (buffer ++ chunk))]

/-- C8 (amended): the streaming adapters' parser, as a function from the
received chunk sequence to the yielded text deltas, equals the per-line
specification applied to the complete lines of the concatenated text —
it carries the partial-line buffer across chunks, yields the content
field of each complete parseable "data: " line UNLESS that content is
empty (JS truthiness), skips malformed or content-free lines without
failing, and stops at the first "[DONE]" payload. -/
theorem streamMessage_spec (pd : List Char → Option (Option (List Char)))
    (chunks : List (List Char)) :
    streamMessage pd chunks = specLinesA pd (splitBuf chunks.flatten).1 := by
  rw [streamMessage, runStream_join pd chunks [] (by simp), List.nil_append,
    processLines_fst_specA]

/-- The payload of an OpenAI-style delta whose content field is the
empty string. -/
def emptyDeltaJson : List Char :=
  "\x7b\"choices\":[\x7b\"delta\":\x7b\"content\":\"\"\x7d\x7d]\x7d".toList

/-- JSON.parse followed by the access `parsed.choices[0]?.delta?.content`,
evaluated at the payloads that occur in the counterexample run: the
empty-content delta parses to the content "" and every other payload in
that run is treated as malformed. -/
def pdEmptyDelta : List Char → Option (Option (List Char)) :=
  fun s => if s = emptyDeltaJson then some (some []) else none

/-- C8 counterexample: a complete "data: " line whose payload parses to
an EMPTY content field is skipped by the code (the truthiness test
`if (content)`), while the claim says every parseable line with a
content field has its content yielded — so the claimed output [""]
differs from the actual output []. -/
theorem streamMessage_empty_content_counterexample :
    streamMessage pdEmptyDelta [("data: ".toList ++ emptyDeltaJson ++ ['\n'])] = []
  ∧ specLines pdEmptyDelta
      (splitBuf (List.flatten [("data: ".toList ++ emptyDeltaJson ++ ['\n'])])).1 = [[]]
  ∧ ([] : List (List Char)) ≠ [[]] :=
  ⟨rfl, rfl, by decide⟩
